import Mathlib

/-!
Verification development for the uplink-website client data layer.

Shallow embedding of the data-synchronization and navigation code:
  * `JsonVal` models the JSON values flowing through the client
    (documents come from `response.json()`, so `undefined` does not occur
    inside them; absence of an object field is modelled by `Option`).
  * `EpisodeService.normalizeEpisodes` / `normalizeEpisode` /
    `syntheticTimestamp` / `sortEpisodes` are embedded from
    `public/js/vendor/matomo.js` (EpisodeService section).
  * `DataService` (fetch with two-tier cache, in-flight deduplication,
    retry with exponential backoff, schema-version stamping) is embedded
    from the DataService source file as an explicit state machine.
  * `StatsService.reload` / `EpisodeService.reload` / `refreshLiveData`
    cache effects, the maintenance gate (`enforceMaintenanceGate`) and the
    router (`hashToPage` / `handleRoute`) are embedded from their sources.
-/

namespace Uplink

/-! ## JSON value model -/

inductive JsonVal where
  | null
  | bool (b : Bool)
  | num (n : Int)
  | str (s : String)
  | arr (elems : List JsonVal)
  | obj (fields : List (String × JsonVal))
deriving Repr

/-- JavaScript truthiness on JSON values: `null`, `false`, `0` and the
empty string are falsy; every array and object is truthy.  (JS `NaN` is
also falsy but numbers are modelled as integers; the documents the claims
quantify over carry integral numbers.) -/
def truthy : JsonVal → Bool
  | .null => false
  | .bool b => b
  | .num n => n != 0
  | .str s => s != ""
  | .arr _ => true
  | .obj _ => true

/-- First binding for a key in an object's field list.  `JSON.parse` keeps
one binding per key, so the concrete documents have unique keys. -/
def lookupField : List (String × JsonVal) → String → Option JsonVal
  | [], _ => none
  | (k, v) :: rest, key => if k = key then some v else lookupField rest key

/-- `v.key` property access, `none` standing for JS `undefined`.  Property
access on a primitive yields `undefined`; access on `null` throws in JS,
but the embedded code only reads properties of values it has checked to be
truthy, except for message items, where the throwing case is modelled
explicitly in `normalizeMessage`. -/
def getF : JsonVal → String → Option JsonVal
  | .obj fields, key => lookupField fields key
  | _, _ => none

/-- `a.key || d`: the field's value when present and truthy, else `d`. -/
def jsOr (o : Option JsonVal) (d : JsonVal) : JsonVal :=
  match o with
  | some v => if truthy v then v else d
  | none => d

/-- `a.k1 || a.k2 || d`. -/
def jsOr2 (o1 o2 : Option JsonVal) (d : JsonVal) : JsonVal :=
  jsOr o1 (jsOr o2 d)

def truthyOpt (o : Option JsonVal) : Bool :=
  match o with
  | some v => truthy v
  | none => false

/-- Is the value a (plain) JS object?  Arrays are JS objects too, but the
spec's "object" for an episode item means a key/value record. -/
def isObjectVal : JsonVal → Bool
  | .obj _ => true
  | _ => false

/-- Is the value one of the container shapes (array or object)? -/
def isContainerVal : JsonVal → Bool
  | .arr _ => true
  | .obj _ => true
  | _ => false

/-- Is the value a positive integer (as the spec's sequence-number rule
requires)? -/
def isPosIntVal : JsonVal → Bool
  | .num n => 0 < n
  | _ => false

/-- `Array.prototype.join(",")` over already-coerced elements. -/
def joinComma : List String → String
  | [] => ""
  | [s] => s
  | s :: rest => s ++ "," ++ joinComma rest

/-- JS string coercion (template-literal interpolation), fuel-indexed so
the recursion through nested arrays is structural: arrays coerce by
joining coerced elements with commas (`null` elements join as the empty
string), plain objects print as `[object Object]`.  The fuel only bounds
array nesting depth; `jsToString` supplies a bound far beyond the call
stack depth at which the JS engine itself would abort the same recursive
coercion, so the fuel-exhausted branch is unreachable for any value the
client can hold. -/
def jsCoerce : Nat → JsonVal → String
  | _, .null => "null"
  | _, .bool b => cond b "true" "false"
  | _, .num n => toString n
  | _, .str s => s
  | _, .obj _ => "[object Object]"
  | 0, .arr _ => ""
  | fuel + 1, .arr elems =>
    joinComma (elems.map (fun e =>
      match e with
      | .null => ""
      | w => jsCoerce fuel w))

def jsToString (v : JsonVal) : String := jsCoerce 100000 v

/-! ## Date / time model

JS `Date` values are integer milliseconds since the Unix epoch; rendering
and parsing use the proleptic Gregorian calendar in UTC.  The conversions
below are the standard civil-date algorithms. -/

/-- Days since 1970-01-01 of the civil date `(y, m, d)`. -/
def daysFromCivil (y m d : Int) : Int :=
  let yAdj : Int := if m ≤ 2 then y - 1 else y
  let era : Int := Int.fdiv yAdj 400
  let yoe : Int := yAdj - era * 400
  let mp : Int := Int.emod (m + 9) 12
  let doy : Int := (153 * mp + 2) / 5 + d - 1
  let doe : Int := yoe * 365 + yoe / 4 - yoe / 100 + doy
  era * 146097 + doe - 719468

/-- Civil date `(y, m, d)` of a day count since 1970-01-01. -/
def civilFromDays (z : Int) : Int × Int × Int :=
  let z : Int := z + 719468
  let era : Int := Int.fdiv z 146097
  let doe : Int := z - era * 146097
  let yoe : Int := (doe - doe / 1460 + doe / 36524 - doe / 146096) / 365
  let y : Int := yoe + era * 400
  let doy : Int := doe - (365 * yoe + yoe / 4 - yoe / 100)
  let mp : Int := (5 * doy + 2) / 153
  let d : Int := doy - (153 * mp + 2) / 5 + 1
  let m : Int := mp + (if mp < 10 then 3 else -9)
  (y + (if m ≤ 2 then 1 else 0), m, d)

def pad2 (n : Nat) : String :=
  if n < 10 then "0" ++ toString n else toString n

def pad3 (n : Nat) : String :=
  if n < 10 then "00" ++ toString n
  else if n < 100 then "0" ++ toString n
  else toString n

def pad4 (n : Nat) : String :=
  if n < 10 then "000" ++ toString n
  else if n < 100 then "00" ++ toString n
  else if n < 1000 then "0" ++ toString n
  else toString n

/-- `Date.prototype.toISOString` for timestamps whose year is in
`0..9999` (JS switches to expanded-year notation outside that range; all
timestamps in this system are contemporary). -/
def toISOString (ms : Int) : String :=
  let days : Int := Int.fdiv ms 86400000
  let msod : Nat := (ms - days * 86400000).toNat
  let ymd := civilFromDays days
  let hh : Nat := msod / 3600000
  let mm : Nat := msod / 60000 % 60
  let ss : Nat := msod / 1000 % 60
  let msPart : Nat := msod % 1000
  pad4 ymd.1.toNat ++ "-" ++ pad2 ymd.2.1.toNat ++ "-" ++ pad2 ymd.2.2.toNat ++
    "T" ++ pad2 hh ++ ":" ++ pad2 mm ++ ":" ++ pad2 ss ++ "." ++ pad3 msPart ++ "Z"

def allDigits (s : String) : Bool :=
  !s.data.isEmpty && s.data.all Char.isDigit

/-- Decimal value of an all-digit string. -/
def decimalNat (s : String) : Nat :=
  s.data.foldl (fun a c => a * 10 + (c.toNat - 48)) 0

/-- Split a character list at every occurrence of `sep` (the splitter
underlying `String.prototype.split` for a one-character separator). -/
def splitChar (sep : Char) : List Char → List (List Char)
  | [] => [[]]
  | c :: cs =>
    if c = sep then [] :: splitChar sep cs
    else
      match splitChar sep cs with
      | [] => [[c]]
      | seg :: segs => (c :: seg) :: segs

def splitDash (s : String) : List String :=
  (splitChar '-' s.data).map String.mk

def daysInMonth (y m : Nat) : Nat :=
  if m = 2 then
    if y % 4 = 0 && (y % 100 != 0 || y % 400 = 0) then 29 else 28
  else if m = 4 || m = 6 || m = 9 || m = 11 then 30
  else 31

/-- Parse an ISO `YYYY-MM-DD` calendar date to the epoch milliseconds of
its midnight UTC.  Models `new Date(dateString + "T03:14:00Z")` (minus the
fixed time-of-day, added by the caller) for the date-only strings the
episodes feed uses; JS would additionally accept some legacy formats,
which never occur in these documents, and rejects out-of-range
month/day components just as this parser does. -/
def parseDateString (s : String) : Option Int :=
  match splitDash s with
  | [ys, ms, ds] =>
    if allDigits ys && allDigits ms && allDigits ds &&
        ys.length = 4 && ms.length = 2 && ds.length = 2 then
      let y := decimalNat ys
      let m := decimalNat ms
      let d := decimalNat ds
      if 1 ≤ m && m ≤ 12 && 1 ≤ d && d ≤ daysInMonth y m then
        some (daysFromCivil (Int.ofNat y) (Int.ofNat m) (Int.ofNat d) * 86400000)
      else none
    else none
  | _ => none

/-! ## EpisodeService — normalization

Embeds `EpisodeService.normalizeEpisodes` / `normalizeEpisode` /
`syntheticTimestamp` / `sortEpisodes`.  The wall clock (`Date.now()`) is
passed explicitly as `nowMs`. -/

/-- Milliseconds from midnight to the fixed reference time-of-day
`03:14:00` appended by the source (`dateString + "T03:14:00Z"`). -/
def BASE_OFFSET_MS : Int := (3 * 60 + 14) * 60000

/-- The instant of the `index`-th synthetic timestamp over a base instant
`baseMs`: `setMinutes(getMinutes() + index * 3)` adds exactly
`index * 3` minutes to the absolute time (the minute field rolls over into
hours/days, and only the minute field changes). -/
def synthInstant (baseMs : Int) (index : Nat) : Int :=
  baseMs + 3 * (Int.ofNat index) * 60000

/-- `EpisodeService.syntheticTimestamp(dateString, index)`.
`dateString` is the episode's already-normalized `date` value (a truthy
JSON value, or `null`); a truthy date is interpolated into
`dateString + "T03:14:00Z"` and parsed, otherwise `Date.now()` (`nowMs`)
is used.  An unparseable date makes `getTime()` NaN and the source returns
`null` (`none` here). -/
def syntheticTimestamp (nowMs : Int) (dateVal : JsonVal) (index : Nat) : Option String :=
  if truthy dateVal then
    match parseDateString (jsToString dateVal) with
    | some dayMs => some (toISOString (synthInstant (dayMs + BASE_OFFSET_MS) index))
    | none => none
  else
    some (toISOString (synthInstant nowMs index))

/-- One normalized message `{...msg, timestamp: ts}`: the original message
fields (`src`) with the `timestamp` field overridden. -/
structure NormMessage where
  src : JsonVal
  timestamp : JsonVal
deriving Repr

/-- The `timestamp` value placed on a message: the message's own truthy
timestamp, else the synthetic one (`null` when the synthetic computation
returned `null`). -/
def messageTimestamp (nowMs : Int) (dateVal : JsonVal) (index : Nat)
    (msg : JsonVal) : JsonVal :=
  jsOr (getF msg "timestamp") (match syntheticTimestamp nowMs dateVal index with
    | some s => .str s
    | none => .null)

/-- `(msg, i) => { const ts = msg.timestamp || syntheticTimestamp(date, i); return {...msg, timestamp: ts} }`.
Reading `msg.timestamp` on a `null` array element throws a `TypeError` in
JS, aborting the whole normalization; that is the `.error` case. -/
def normalizeMessage (nowMs : Int) (dateVal : JsonVal) (index : Nat)
    (msg : JsonVal) : Except Unit NormMessage :=
  match msg with
  | .null => .error ()
  | m => .ok { src := m, timestamp := messageTimestamp nowMs dateVal index m }

/-- `messages.map(...)`, left to right, index-passing; the first thrown
`TypeError` aborts the batch. -/
def normMessages (nowMs : Int) (dateVal : JsonVal) :
    List JsonVal → Nat → Except Unit (List NormMessage)
  | [], _ => .ok []
  | m :: rest, i =>
    match normalizeMessage nowMs dateVal i m with
    | .error err => .error err
    | .ok nm =>
      match normMessages nowMs dateVal rest (i + 1) with
      | .error err => .error err
      | .ok nrest => .ok (nm :: nrest)

/-- Canonical episode record produced by `normalizeEpisode`: the fields it
sets explicitly.  `src` stands for the spread-copied remaining source
fields (`{...episode, ...}`); no claim inspects those, and each listed
field overrides any synonymous source field. -/
structure NormEpisode where
  src : JsonVal
  date : JsonVal
  episode : JsonVal
  messages : List NormMessage
  terminal_blocks : JsonVal
  score_delta : JsonVal
  metrics_update : JsonVal
  state_snapshot : JsonVal
deriving Repr

/-- `const date = episode.date || null`. -/
def dateOf (ep : JsonVal) : JsonVal := jsOr (getF ep "date") .null

/-- `Array.isArray(episode.messages) ? episode.messages : []`. -/
def rawMessages (ep : JsonVal) : List JsonVal :=
  match getF ep "messages" with
  | some (.arr ms) => ms
  | _ => []

/-- The object literal `normalizeEpisode` returns for a truthy episode
item, given the already-normalized messages. -/
def mkNormEpisode (ep : JsonVal) (index : Nat) (nmsgs : List NormMessage) :
    NormEpisode :=
  { src := ep
    date := dateOf ep
    episode := jsOr (getF ep "episode") (.num (Int.ofNat (index + 1)))
    messages := nmsgs
    terminal_blocks := jsOr (getF ep "terminal_blocks") (.arr [])
    score_delta := jsOr2 (getF ep "score_delta") (getF ep "scoreDelta") (.obj [])
    metrics_update := jsOr2 (getF ep "metrics_update") (getF ep "metricsUpdate") (.obj [])
    state_snapshot := jsOr2 (getF ep "state_snapshot") (getF ep "stateSnapshot") .null }

/-- `EpisodeService.normalizeEpisode(episode, index)`.  Falsy items yield
`null` (`none`); otherwise every output field is filled as in the source
(`||` defaulting, `Array.isArray` check for messages). -/
def normalizeEpisode (nowMs : Int) (ep : JsonVal) (index : Nat) :
    Except Unit (Option NormEpisode) :=
  if truthy ep then
    match normMessages nowMs (dateOf ep) (rawMessages ep) 0 with
    | .ok nmsgs => .ok (some (mkNormEpisode ep index nmsgs))
    | .error e => .error e
  else .ok none

/-- `rawEpisodes.map((ep, idx) => normalizeEpisode(ep, idx)).filter(Boolean)`,
with the map's left-to-right evaluation aborting at a thrown error. -/
def normEpisodesList (nowMs : Int) :
    List JsonVal → Nat → Except Unit (List NormEpisode)
  | [], _ => .ok []
  | e :: rest, i =>
    match normalizeEpisode nowMs e i with
    | .error err => .error err
    | .ok r =>
      match normEpisodesList nowMs rest (i + 1) with
      | .error err => .error err
      | .ok nrest =>
        .ok (match r with
          | some entry => entry :: nrest
          | none => nrest)

/-- `EpisodeService.normalizeEpisodes(rawEpisodes)`: non-arrays normalize
to `[]`. -/
def normalizeEpisodes (nowMs : Int) (raw : JsonVal) : Except Unit (List NormEpisode) :=
  match raw with
  | .arr xs => normEpisodesList nowMs xs 0
  | _ => .ok []

/-- `EpisodeService.sortEpisodes(episodes, order)`: copies the list
(`[...episodes]`) and reverses the copy for `"newest"`; the argument list
is never mutated (the model is pure over immutable lists, mirroring the
copy-before-reverse in the source). -/
def sortEpisodes {α : Type} (episodes : List α) (order : String) : List α :=
  let sorted := episodes
  if order = "newest" then sorted.reverse else sorted

/-! ## DataService — two-tier cache, in-flight deduplication, retry

The DataService instance state (`this.cache`, `this.loading`,
`localStorage`, `this.cacheVersion`) is modelled as `DSState`; `Map` and
`localStorage` are association lists.  Pending promises are identified by
promise ids (`Nat`): the synchronous part of `fetch` is `fetchStart`, the
asynchronous continuation (retry loop, status check, validate, transform,
cache write-back) is `fetchWithRetry` / `processResponse` / `settleFetch`,
driven by a transport schedule. -/

def mget {β : Type} : List (String × β) → String → Option β
  | [], _ => none
  | (k, v) :: rest, key => if k = key then some v else mget rest key

def mdel {β : Type} (m : List (String × β)) (key : String) : List (String × β) :=
  m.filter (fun kv => kv.1 != key)

def mset {β : Type} (m : List (String × β)) (key : String) (v : β) :
    List (String × β) :=
  (key, v) :: mdel m key

/-- An in-memory cache entry `{ data, timestamp }`. -/
structure CacheEntry where
  data : JsonVal
  timestamp : Int
deriving Repr

/-- A persisted entry `JSON.stringify({ version: this.cacheVersion, ...data })`
(the stringify/parse round trip is lossless for these shapes). -/
structure StoredEntry where
  version : String
  data : JsonVal
  timestamp : Int
deriving Repr

structure DSState where
  cache : List (String × CacheEntry)
  loading : List (String × Nat)
  localStore : List (String × StoredEntry)
  cacheVersion : String
deriving Repr

/-- The localStorage key prefix: `uplink_cache_${key}`. -/
def storageKey (key : String) : String := "uplink_cache_" ++ key

/-- Is `pat` a prefix of the character list? -/
def prefixMatch : List Char → List Char → Bool
  | [], _ => true
  | _ :: _, [] => false
  | p :: ps, c :: cs => p = c && prefixMatch ps cs

/-- Does `pat` occur anywhere in the character list? -/
def hasSubList (pat : List Char) : List Char → Bool
  | [] => pat.isEmpty
  | c :: cs => prefixMatch pat (c :: cs) || hasSubList pat cs

/-- Substring occurrence, as tested by `String.prototype.includes` and by
the literal-only regex `/([?&])v=/.test(url)`. -/
def containsSub (s pat : String) : Bool := hasSubList pat.data s.data

/-- The regex test `/([?&])v=/.test(url)`. -/
def hasVersionParam (url : String) : Bool :=
  containsSub url "?v=" || containsSub url "&v="

/-- `DataService.addVersion(url)` (the version strings used contain no
URI-reserved characters, so `encodeURIComponent` is the identity on
them). -/
def addVersion (cacheVersion url : String) : String :=
  if cacheVersion = "" then url
  else if hasVersionParam url then url
  else url ++ (if containsSub url "?" then "&" else "?") ++ "v=" ++ cacheVersion

/-- `DataService.saveToLocalStorage(key, data)`; the quota-exceeded
`catch` branch (entry simply not written) is not exercised by any
claim. -/
def saveToLocalStorage (st : DSState) (key : String) (e : CacheEntry) : DSState :=
  let se : StoredEntry :=
    { version := st.cacheVersion, data := e.data, timestamp := e.timestamp }
  { st with localStore := mset st.localStore (storageKey key) se }

/-- `DataService.getFromLocalStorage(key)`: returns the entry and the
(possibly updated) state — a version-mismatched entry is removed and
`null` returned. -/
def getFromLocalStorage (st : DSState) (key : String) : Option CacheEntry × DSState :=
  match mget st.localStore (storageKey key) with
  | none => (none, st)
  | some se =>
    if se.version ≠ st.cacheVersion then
      (none, { st with localStore := mdel st.localStore (storageKey key) })
    else (some { data := se.data, timestamp := se.timestamp }, st)

/-- The destructured `options` of `DataService.fetch`. -/
structure FetchOptions where
  cache : Bool := true
  cacheDuration : Int := 3600000
  validator : Option (JsonVal → Bool) := none
  transform : Option (JsonVal → JsonVal) := none
  retries : Nat := 3

/-- What the synchronous part of `DataService.fetch` does for one call. -/
inductive FetchDecision where
  | hitMemory (data : JsonVal)
  | hitLocal (data : JsonVal)
  | joinInFlight (pid : Nat)
  | startRequest (pid : Nat) (fetchUrl : String)
deriving Repr

/-- Steps 3–4 of `fetch`: join an in-flight request, else register a new
one (`this.loading.set` runs synchronously before `fetch` returns). -/
def fetchJoinOrStart (st : DSState) (url : String) (cacheVersion : String)
    (freshPid : Nat) : FetchDecision × DSState :=
  match mget st.loading url with
  | some pid => (.joinInFlight pid, st)
  | none =>
    (.startRequest freshPid (addVersion cacheVersion url),
      { st with loading := mset st.loading url freshPid })

/-- The synchronous prefix of `DataService.fetch(url, options)` (source
lines 18–92): memory tier, persistent tier (with promotion), in-flight
coalescing, else start a request.  `now` is `Date.now()`, `freshPid` the
id of the promise a new request would create. -/
def fetchStart (st : DSState) (now : Int) (url : String) (opts : FetchOptions)
    (freshPid : Nat) : FetchDecision × DSState :=
  let memHit : Option JsonVal :=
    if opts.cache then
      match mget st.cache url with
      | some c => if now - c.timestamp < opts.cacheDuration then some c.data else none
      | none => none
    else none
  match memHit with
  | some d => (.hitMemory d, st)
  | none =>
    if opts.cache then
      let lc := getFromLocalStorage st url
      match lc.1 with
      | some entry =>
        if now - entry.timestamp < opts.cacheDuration then
          (.hitLocal entry.data, { lc.2 with cache := mset lc.2.cache url entry })
        else fetchJoinOrStart lc.2 url st.cacheVersion freshPid
      | none => fetchJoinOrStart lc.2 url st.cacheVersion freshPid
    else fetchJoinOrStart st url st.cacheVersion freshPid

structure HttpResponse where
  ok : Bool
  status : Nat
  statusText : String
  body : JsonVal

/-- Outcome of one `fetch(url, fetchOptions)` transport attempt: the
promise rejects (connection failure) or resolves with a response. -/
inductive AttemptOutcome where
  | transportErr (msg : String)
  | response (r : HttpResponse)

/-- Result of the `fetchWithRetry` loop, recording the attempts used and
the backoff delays awaited (in ms). -/
inductive RetryResult where
  | resolved (r : HttpResponse) (attempts : Nat) (delays : List Nat)
  | rejected (msg : String) (attempts : Nat) (delays : List Nat)
  | noAttempt

/-- The `for (let i = 0; i < retries; i++)` body of
`DataService.fetchWithRetry`: any resolved response returns immediately;
a transport rejection on the last attempt (`i === retries - 1`) is
re-thrown, otherwise `delay(Math.pow(2, i) * 1000)` is awaited and the
loop retries.  The first argument is the number of remaining iterations
(`retries - i`), the second the current loop index `i`. -/
def retryLoop (sched : Nat → AttemptOutcome) : Nat → Nat → RetryResult
  | 0, _ => .noAttempt
  | remaining + 1, i =>
    match sched i with
    | .response r => .resolved r (i + 1) []
    | .transportErr e =>
      if remaining = 0 then .rejected e (i + 1) []
      else
        match retryLoop sched remaining (i + 1) with
        | .resolved r a ds => .resolved r a (2 ^ i * 1000 :: ds)
        | .rejected m a ds => .rejected m a (2 ^ i * 1000 :: ds)
        | .noAttempt => .noAttempt

/-- `DataService.fetchWithRetry(url, retries, fetchOptions)` under a
transport schedule (`sched i` = outcome of the `i`-th attempt). -/
def fetchWithRetry (sched : Nat → AttemptOutcome) (retries : Nat) : RetryResult :=
  retryLoop sched retries 0

/-- `` `HTTP ${response.status}: ${response.statusText}` ``. -/
def httpErrorMsg (r : HttpResponse) : String :=
  "HTTP " ++ toString r.status ++ ": " ++ r.statusText

/-- `` `Validation failed for ${url}` ``. -/
def validationErrorMsg (url : String) : String :=
  "Validation failed for " ++ url

/-- The `.then` chain applied to a resolved response: non-ok status throws
immediately, then `response.json()` (the body is already structured data
here), validator, transform. -/
def processResponse (url : String) (opts : FetchOptions) (r : HttpResponse) :
    Except String JsonVal :=
  if !r.ok then .error (httpErrorMsg r)
  else
    let data := r.body
    let rejected : Bool :=
      match opts.validator with
      | some v => !(v data)
      | none => false
    if rejected then .error (validationErrorMsg url)
    else .ok (match opts.transform with
      | some t => t data
      | none => data)

/-- The value the fetch promise eventually settles with, for a given
transport schedule. -/
def netOutcome (url : String) (opts : FetchOptions) (sched : Nat → AttemptOutcome) :
    Except String JsonVal :=
  match fetchWithRetry sched opts.retries with
  | .resolved r _ _ => processResponse url opts r
  | .rejected e _ _ => .error e
  | .noAttempt => .error "TypeError: response is undefined"

/-- State effect of the promise settling: on success, write both cache
tiers (when `cache` is on) and clear the in-flight marker; on failure,
clear the marker only. -/
def settleFetch (st : DSState) (now : Int) (url : String) (opts : FetchOptions)
    (res : Except String JsonVal) : DSState :=
  match res with
  | .ok d =>
    let stWritten :=
      if opts.cache then
        let e : CacheEntry := { data := d, timestamp := now }
        saveToLocalStorage { st with cache := mset st.cache url e } url e
      else st
    { stWritten with loading := mdel stWritten.loading url }
  | .error _ => { st with loading := mdel st.loading url }

/-- `DataService.invalidate(url?)`: one key from both tiers, or the whole
namespace. -/
def invalidate (st : DSState) (url : Option String) : DSState :=
  match url with
  | some u =>
    { st with cache := mdel st.cache u,
              localStore := mdel st.localStore (storageKey u) }
  | none =>
    { st with cache := [],
              localStore := st.localStore.filter
                (fun kv => !(kv.1.startsWith "uplink_cache_")) }

/-- `n` concurrent `fetch` calls for the same url before any settles: the
synchronous prefixes run back to back on the single JS thread, each with a
distinct fresh promise id. -/
def fetchCalls (now : Int) (url : String) (opts : FetchOptions) :
    Nat → DSState → Nat → List FetchDecision × DSState
  | 0, st, _ => ([], st)
  | n + 1, st, basePid =>
    let step := fetchStart st now url opts basePid
    let rest := fetchCalls now url opts n step.2 (basePid + 1)
    (step.1 :: rest.1, rest.2)

def isNetworkCall : FetchDecision → Bool
  | .startRequest _ _ => true
  | _ => false

/-- The promise a caller ends up awaiting, if any (cache hits resolve
immediately instead). -/
def pendingPid : FetchDecision → Option Nat
  | .joinInFlight pid => some pid
  | .startRequest pid _ => some pid
  | _ => none

/-- What a caller eventually observes, given the settlement value of each
promise id. -/
def observedResult (resolve : Nat → Except String JsonVal) :
    FetchDecision → Except String JsonVal
  | .hitMemory d => .ok d
  | .hitLocal d => .ok d
  | .joinInFlight pid => resolve pid
  | .startRequest pid _ => resolve pid

/-! ## Service singletons and the manual refresh path

`EpisodeService` memoizes its episodes and `StatsService` memoizes stats
and config; `refreshLiveData` calls `EpisodeService.reload()` then
`StatsService.reload()` before re-fetching episodes and stats. -/

structure ServicesState where
  ds : DSState
  episodesMemo : Option (List NormEpisode)
  statsMemo : Option JsonVal
  configMemo : Option JsonVal

def episodesUrl : String := "/data/dialogs.json"

def statsUrl : String := "/data/stats.json"

def configUrl : String := "/data/config.json"

/-- `EpisodeService.reload()`: `this.episodes = null; DataService.invalidate(this.dataUrl)`. -/
def episodeServiceReload (s : ServicesState) : ServicesState :=
  { s with episodesMemo := none, ds := invalidate s.ds (some episodesUrl) }

/-- `StatsService.reload()`: clears `this.stats` and `this.config` and
invalidates **both** the stats and the config url. -/
def statsServiceReload (s : ServicesState) : ServicesState :=
  { s with statsMemo := none, configMemo := none,
           ds := invalidate (invalidate s.ds (some statsUrl)) (some configUrl) }

/-- The cache effect of `refreshLiveData()` before it re-fetches:
`EpisodeService.reload(); StatsService.reload()`. -/
def refreshInvalidation (s : ServicesState) : ServicesState :=
  statsServiceReload (episodeServiceReload s)

/-! ## Maintenance gate (`enforceMaintenanceGate`)

`sessionStorage` is a string-keyed session-scoped store that survives
page reloads within one tab session; it is modelled as an association
list threaded through the gate check. -/

abbrev SessionStore := List (String × String)

def maintPrefix : String := "uplink_maintenance_"

def forceOffKey : String := "uplink_maintenance_force_off"

/-- The raw `maintenance.enabled` flag check:
`enabledRaw === true || enabledRaw === 'true' || enabledRaw === 1 || enabledRaw === '1'`. -/
def gateEnabled (v : Option JsonVal) : Bool :=
  match v with
  | some (.bool true) => true
  | some (.str s) => s = "true" || s = "1"
  | some (.num n) => n = 1
  | _ => false

/-- The `maintenance` settings object fields the gate reads. -/
structure GateConfig where
  enabled : Option JsonVal
  passphrase_sha256 : Option String

/-- `String.prototype.trim`: strip leading and trailing whitespace. -/
def trimStr (s : String) : String :=
  String.mk (((s.data.dropWhile Char.isWhitespace).reverse.dropWhile
    Char.isWhitespace).reverse)

/-- `String.prototype.toLowerCase` (ASCII case folding suffices for the
hex digests compared here). -/
def toLowerStr (s : String) : String :=
  String.mk (s.data.map Char.toLower)

/-- `(settings.passphrase_sha256 || '').trim().toLowerCase()`. -/
def expectedHashOf (cfg : GateConfig) : String :=
  toLowerStr (trimStr (match cfg.passphrase_sha256 with
    | some s => s
    | none => ""))

/-- `` `${MAINT_SESSION_PREFIX}${expectedHash || 'open'}` ``. -/
def gateSessionKey (expectedHash : String) : String :=
  maintPrefix ++ (if expectedHash = "" then "open" else expectedHash)

/-- The value stored on unlock, `expectedHash || 'open'`. -/
def sessionToken (expectedHash : String) : String :=
  if expectedHash = "" then "open" else expectedHash

structure GateOutcome where
  blocks : Bool
  session : SessionStore

/-- The decision part of `enforceMaintenanceGate(config)`: whether the
overlay blocks the load sequence, as a function of the
`?maintenance=off` escape parameter, the session store, and the
`config.maintenance` settings (`none` = absent). -/
def enforceMaintenanceGate (paramOff : Bool) (session : SessionStore)
    (settings : Option GateConfig) : GateOutcome :=
  let session := if paramOff then mset session forceOffKey "1" else session
  if mget session forceOffKey = some "1" then { blocks := false, session := session }
  else
    match settings with
    | none => { blocks := false, session := session }
    | some cfg =>
      if !gateEnabled cfg.enabled then { blocks := false, session := session }
      else
        let expectedHash := expectedHashOf cfg
        let key := gateSessionKey expectedHash
        match mget session key with
        | some stored =>
          if stored = sessionToken expectedHash then
            { blocks := false, session := session }
          else { blocks := true, session := session }
        | none => { blocks := true, session := session }

/-- The session write performed by the gate's `unlock()`:
`sessionStorage.setItem(sessionKey, expectedHash || 'open')`. -/
def gateUnlock (session : SessionStore) (expectedHash : String) : SessionStore :=
  mset session (gateSessionKey expectedHash) (sessionToken expectedHash)

/-! ## Router (`pageToHash` / `hashToPage` / `navigate` / `handleRoute`) -/

def VALID_PAGES : List String := ["live", "protokoll", "dossiers", "info"]

def pageToHash (page : String) : String :=
  if page = "protokoll" then "episoden" else page

/-- `hashToPage(hash)`: the external alias `episoden` maps to the internal
page id `protokoll`; the empty fragment defaults to `live`. -/
def hashToPage (hash : String) : String :=
  if hash = "episoden" then "protokoll"
  else if hash = "" then "live"
  else hash

/-- Drop the first occurrence of a character from a character list. -/
def dropFirstChar (target : Char) : List Char → List Char
  | [] => []
  | c :: cs => if c = target then cs else c :: dropFirstChar target cs

/-- `window.location.hash.replace('#', '')`: JS string `replace` with a
string pattern removes only the first occurrence. -/
def stripHash (s : String) : String :=
  String.mk (dropFirstChar '#' s.data)

/-- The regex test `/^\d+$/.test(epRaw)` guarded by `epRaw` truthiness. -/
def isDigitsParam (o : Option String) : Bool :=
  match o with
  | some s => allDigits s
  | none => false

/-- The externally visible action `handleRoute` takes. -/
inductive RouteAction where
  /-- early return: no navigation performed -/
  | stay
  /-- `navigate('protokoll', { updateHash: true })` plus `setOrder('phase')` -/
  | archivNav
  /-- `navigate(page, { updateHash: upd })`; `scrollQuery` records whether
  `scrollToEpisodeFromQuery()` runs afterwards -/
  | nav (page : String) (updateHash : Bool) (scrollQuery : Bool)
deriving Repr, DecidableEq

/-- `handleRoute()` as a function of `window.location.hash`, the `ep`
query parameter, and the current page. -/
def handleRoute (locationHash : String) (epParam : Option String)
    (currentPage : String) : RouteAction :=
  let h := hashToPage (stripHash locationHash)
  let h := if !(VALID_PAGES.contains h) && h ≠ "archiv" then "live" else h
  if h = "archiv" then .archivNav
  else
    let hasEpisodeQuery := isDigitsParam epParam
    if currentPage = h && !(h = "protokoll" && hasEpisodeQuery) then .stay
    else .nav h false (h = "protokoll")

/-! ## Association-list map lemmas -/

theorem mget_mdel {β : Type} (m : List (String × β)) (k q : String) :
    mget (mdel m k) q = if q = k then none else mget m q := by
  induction m with
  | nil => simp [mdel, mget]
  | cons hd tl ih =>
    obtain ⟨a, b⟩ := hd
    by_cases hak : a = k
    · subst hak
      rw [show mdel ((a, b) :: tl) a = mdel tl a from by simp [mdel]]
      rw [ih]
      by_cases hqa : q = a
      · simp [hqa]
      · have haq : ¬ a = q := fun h => hqa h.symm
        simp [mget, hqa, haq]
    · rw [show mdel ((a, b) :: tl) k = (a, b) :: mdel tl k from by
        simp [mdel, List.filter_cons, bne_iff_ne, hak]]
      by_cases hqa : q = a
      · subst hqa
        simp [mget, hak]
      · have haq : ¬ a = q := fun h => hqa h.symm
        simp [mget, haq, ih]

theorem mget_mset {β : Type} (m : List (String × β)) (k q : String) (v : β) :
    mget (mset m k v) q = if q = k then some v else mget m q := by
  unfold mset
  by_cases h : k = q
  · subst h
    simp [mget]
  · simp [mget, h, mget_mdel, Ne.symm h]

theorem mget_mset_self {β : Type} (m : List (String × β)) (k : String) (v : β) :
    mget (mset m k v) k = some v := by
  simp [mget_mset]

/-! ## Theorems for the claims -/

/-- C10: `EpisodeService.sortEpisodes` never mutates the list it is given
(the source spreads into a copy before reversing; the model is pure):
`"chrono"` returns the elements in the original order, `"newest"` returns
exactly the reversed order, and applying the `"newest"` sort twice
restores the original order. -/
theorem C10_sortEpisodes_pure {α : Type} (episodes : List α) :
    sortEpisodes episodes "chrono" = episodes ∧
    sortEpisodes episodes "newest" = episodes.reverse ∧
    sortEpisodes (sortEpisodes episodes "newest") "newest" = episodes := by
  refine ⟨rfl, rfl, ?_⟩
  simp [sortEpisodes]

/-- C9: `handleRoute` with fragment `#episoden` resolves to the internal
episode-archive page id `protokoll` (not a literal `episoden` page), and
performs the navigation with `updateHash: false`, so the URL fragment is
not mutated again; a fragment naming no known page or alias resolves to
the default start page `live`. -/
theorem C9_handleRoute_alias :
    hashToPage "episoden" = "protokoll" ∧
    (∀ cur : String, cur ≠ "protokoll" →
      handleRoute "#episoden" none cur = .nav "protokoll" false true) ∧
    (∀ (frag : String) (q : Option String) (cur : String),
      VALID_PAGES.contains (hashToPage (stripHash frag)) = false →
      hashToPage (stripHash frag) ≠ "archiv" →
      handleRoute frag q cur = .stay ∨
        handleRoute frag q cur = .nav "live" false false) := by
  refine ⟨rfl, ?_, ?_⟩
  · intro cur hcur
    simp only [handleRoute]
    rw [show hashToPage (stripHash "#episoden") = "protokoll" from rfl]
    simp [hcur, VALID_PAGES, isDigitsParam]
  · intro frag q cur hvalid harchiv
    have hv2 : hashToPage (stripHash frag) ∉ VALID_PAGES := by
      simpa using hvalid
    by_cases hc : cur = "live" <;>
      simp [handleRoute, hv2, harchiv, hc, isDigitsParam]

/-- C9 witness: routing `#episoden` from the `live` page navigates to
`protokoll` without touching the hash, and an unknown fragment falls back
to the start page. -/
theorem C9_handleRoute_alias_witness :
    handleRoute "#episoden" none "live" = .nav "protokoll" false true ∧
    (handleRoute "#quux" none "dossiers" = .stay ∨
      handleRoute "#quux" none "dossiers" = .nav "live" false false) :=
  ⟨C9_handleRoute_alias.2.1 "live" (by decide),
   C9_handleRoute_alias.2.2 "#quux" none "dossiers" (by decide) (by decide)⟩

/-- C6 counterexample: an `episode` field holding `-5` — not a positive
integer — nevertheless overrides the positional sequence number (the
source tests `episode.episode || index + 1`, i.e. mere truthiness), so the
record gets sequence number `-5` instead of the positional `1` the claim
requires. -/
theorem C6_counterexample :
    normalizeEpisode 0 (.obj [("episode", .num (-5))]) 0 =
      .ok (some ⟨.obj [("episode", .num (-5))], .null, .num (-5), [],
        .arr [], .obj [], .obj [], .null⟩) ∧
    isPosIntVal (.num (-5)) = false :=
  ⟨rfl, rfl⟩

/-- C6 (amended): each normalized record's sequence number is its 1-based
input position, unless the source supplies any *truthy* `episode` value,
in which case that value wins whatever it is; falsy values (absent, null,
`0`, `false`, empty string) do not override.  In particular every
source-supplied positive integer wins, as the original claim stated. -/
theorem C6_sequence_numbers (nowMs : Int) (ep : JsonVal) (index : Nat)
    (r : NormEpisode)
    (h : normalizeEpisode nowMs ep index = .ok (some r)) :
    (truthyOpt (getF ep "episode") = true → some r.episode = getF ep "episode") ∧
    (truthyOpt (getF ep "episode") = false →
      r.episode = .num (Int.ofNat (index + 1))) ∧
    (∀ n : Int, 0 < n → getF ep "episode" = some (.num n) → r.episode = .num n) := by
  have hep : r.episode = jsOr (getF ep "episode") (.num (Int.ofNat (index + 1))) := by
    unfold normalizeEpisode at h
    by_cases ht : truthy ep
    · rw [if_pos ht] at h
      cases hm : normMessages nowMs (dateOf ep) (rawMessages ep) 0 with
      | ok nmsgs =>
        rw [hm] at h
        cases h
        rfl
      | error e =>
        rw [hm] at h
        cases h
    · rw [if_neg ht] at h
      cases h
  refine ⟨?_, ?_, ?_⟩
  · intro htr
    rw [hep]
    cases hg : getF ep "episode" with
    | some v =>
      rw [hg] at htr
      simp [jsOr, truthyOpt] at htr ⊢
      simp [htr]
    | none =>
      rw [hg] at htr
      simp [truthyOpt] at htr
  · intro hfa
    rw [hep]
    cases hg : getF ep "episode" with
    | some v =>
      rw [hg] at hfa
      simp [truthyOpt] at hfa
      simp [jsOr, hfa]
    | none => simp [jsOr]
  · intro n hn hg
    rw [hep, hg]
    simp [jsOr, truthy]
    omega

/-- C6 witness: a concrete record with no `episode` field gets the
positional sequence number, and one with `episode: 7` keeps `7`. -/
theorem C6_sequence_numbers_witness :
    (truthyOpt (getF (.obj [("title", .str "t")]) "episode") = false →
      (NormEpisode.episode ⟨.obj [("title", .str "t")], .null, .num 1, [],
        .arr [], .obj [], .obj [], .null⟩) = .num (Int.ofNat (0 + 1))) ∧
    (∀ n : Int, 0 < n →
      getF (.obj [("episode", .num 7)]) "episode" = some (.num n) →
      (NormEpisode.episode ⟨.obj [("episode", .num 7)], .null, .num 7, [],
        .arr [], .obj [], .obj [], .null⟩) = .num n) :=
  ⟨(C6_sequence_numbers 0 (.obj [("title", .str "t")]) 0 _ rfl).2.1,
   (C6_sequence_numbers 0 (.obj [("episode", .num 7)]) 0 _ rfl).2.2⟩

/-- Shared cache-miss evaluation of `fetch`'s synchronous prefix: when the
memory tier, the persistent tier, and the in-flight map all miss, the call
starts a network request and registers it. -/
theorem fetchStart_miss (st : DSState) (now : Int) (url : String)
    (opts : FetchOptions) (pid : Nat)
    (hmem : mget st.cache url = none)
    (hloc : mget st.localStore (storageKey url) = none)
    (hload : mget st.loading url = none) :
    fetchStart st now url opts pid =
      (.startRequest pid (addVersion st.cacheVersion url),
       { st with loading := mset st.loading url pid }) := by
  have hlocal : getFromLocalStorage st url = (none, st) := by
    unfold getFromLocalStorage
    rw [hloc]
  unfold fetchStart fetchJoinOrStart
  cases hc : opts.cache <;> simp [hc, hmem, hlocal, hload]

/-- Shared coalescing evaluation of `fetch`'s synchronous prefix: when
both cache tiers miss but a request for the key is in flight, the call
returns the pending promise and leaves the state unchanged. -/
theorem fetchStart_join (st : DSState) (now : Int) (url : String)
    (opts : FetchOptions) (pid fresh : Nat)
    (hmem : mget st.cache url = none)
    (hloc : mget st.localStore (storageKey url) = none)
    (hload : mget st.loading url = some pid) :
    fetchStart st now url opts fresh = (.joinInFlight pid, st) := by
  have hlocal : getFromLocalStorage st url = (none, st) := by
    unfold getFromLocalStorage
    rw [hloc]
  unfold fetchStart fetchJoinOrStart
  cases hc : opts.cache <;> simp [hc, hmem, hlocal, hload]

/-- C7 counterexample: a state whose config document is cached in both
tiers (and memoized) loses all three on `refreshLiveData`'s invalidation
path — `StatsService.reload()` invalidates the config url too, so the
cached config entry is **not** left unchanged by the refresh. -/
theorem C7_counterexample :
    refreshInvalidation
      ⟨⟨[(configUrl, ⟨.str "cfg", 100⟩)], [],
        [(storageKey configUrl, ⟨"1.2", .str "cfg", 100⟩)], "1.2"⟩,
        none, some (.str "stats"), some (.str "cfg")⟩ =
      ⟨⟨[], [], [], "1.2"⟩, none, none, none⟩ ∧
    mget [(configUrl, (⟨.str "cfg", 100⟩ : CacheEntry))] configUrl =
      some ⟨.str "cfg", 100⟩ :=
  ⟨rfl, rfl⟩

/-- C7 (amended): the manual refresh invalidates both cache tiers and the
memoized copies for the episodes document, the stats document **and** the
config document, then re-fetches episodes and stats (a subsequent fetch of
any of the three keys with no request in flight goes to the network). -/
theorem C7_refresh_invalidation (s : ServicesState) :
    mget (refreshInvalidation s).ds.cache episodesUrl = none ∧
    mget (refreshInvalidation s).ds.localStore (storageKey episodesUrl) = none ∧
    mget (refreshInvalidation s).ds.cache statsUrl = none ∧
    mget (refreshInvalidation s).ds.localStore (storageKey statsUrl) = none ∧
    mget (refreshInvalidation s).ds.cache configUrl = none ∧
    mget (refreshInvalidation s).ds.localStore (storageKey configUrl) = none ∧
    (refreshInvalidation s).episodesMemo = none ∧
    (refreshInvalidation s).statsMemo = none ∧
    (refreshInvalidation s).configMemo = none ∧
    (∀ (now : Int) (opts : FetchOptions) (pid : Nat) (u : String),
      (u = episodesUrl ∨ u = statsUrl ∨ u = configUrl) →
      mget (refreshInvalidation s).ds.loading u = none →
      (fetchStart (refreshInvalidation s).ds now u opts pid).1 =
        .startRequest pid (addVersion (refreshInvalidation s).ds.cacheVersion u)) := by
  have hcache : ∀ u, (u = episodesUrl ∨ u = statsUrl ∨ u = configUrl) →
      mget (refreshInvalidation s).ds.cache u = none := by
    intro u hu
    show mget (mdel (mdel (mdel s.ds.cache episodesUrl) statsUrl) configUrl) u = none
    rcases hu with h | h | h <;> subst h <;>
      simp [mget_mdel, episodesUrl, statsUrl, configUrl]
  have hlocal : ∀ u, (u = episodesUrl ∨ u = statsUrl ∨ u = configUrl) →
      mget (refreshInvalidation s).ds.localStore (storageKey u) = none := by
    intro u hu
    show mget (mdel (mdel (mdel s.ds.localStore (storageKey episodesUrl))
      (storageKey statsUrl)) (storageKey configUrl)) (storageKey u) = none
    rcases hu with h | h | h <;> subst h <;>
      simp [mget_mdel, episodesUrl, statsUrl, configUrl, storageKey]
  refine ⟨hcache episodesUrl (Or.inl rfl), hlocal episodesUrl (Or.inl rfl),
    hcache statsUrl (Or.inr (Or.inl rfl)), hlocal statsUrl (Or.inr (Or.inl rfl)),
    hcache configUrl (Or.inr (Or.inr rfl)), hlocal configUrl (Or.inr (Or.inr rfl)),
    rfl, rfl, rfl, ?_⟩
  intro now opts pid u hu hload
  rw [fetchStart_miss _ now u opts pid (hcache u hu) (hlocal u hu) hload]

/-- C7 witness: the amended effect at a concrete cached state, and the
network re-fetch decision for the episodes url. -/
theorem C7_refresh_invalidation_witness :
    mget (refreshInvalidation
      ⟨⟨[(configUrl, ⟨.str "cfg", 100⟩)], [], [], "1.2"⟩,
        none, none, some (.str "cfg")⟩).ds.cache configUrl = none ∧
    (fetchStart (refreshInvalidation
      ⟨⟨[(configUrl, ⟨.str "cfg", 100⟩)], [], [], "1.2"⟩,
        none, none, some (.str "cfg")⟩).ds 0 episodesUrl {} 5).1 =
      .startRequest 5 (addVersion (refreshInvalidation
        ⟨⟨[(configUrl, ⟨.str "cfg", 100⟩)], [], [], "1.2"⟩,
          none, none, some (.str "cfg")⟩).ds.cacheVersion episodesUrl) :=
  ⟨(C7_refresh_invalidation
      ⟨⟨[(configUrl, ⟨.str "cfg", 100⟩)], [], [], "1.2"⟩,
        none, none, some (.str "cfg")⟩).2.2.2.2.1,
   (C7_refresh_invalidation
      ⟨⟨[(configUrl, ⟨.str "cfg", 100⟩)], [], [], "1.2"⟩,
        none, none, some (.str "cfg")⟩).2.2.2.2.2.2.2.2.2
     0 {} 5 episodesUrl (Or.inl rfl) rfl⟩

/-- While a request for a key is in flight and both cache tiers miss,
every further `fetch` call for that key joins the pending promise and
leaves the service state untouched. -/
theorem fetchCalls_join (now : Int) (url : String) (opts : FetchOptions)
    (pid : Nat) (st : DSState)
    (hmem : mget st.cache url = none)
    (hloc : mget st.localStore (storageKey url) = none)
    (hload : mget st.loading url = some pid) :
    ∀ (n basePid : Nat),
      fetchCalls now url opts n st basePid =
        (List.replicate n (.joinInFlight pid), st) := by
  intro n
  induction n with
  | zero => intro basePid; rfl
  | succ m ih =>
    intro basePid
    simp only [fetchCalls]
    rw [fetchStart_join st now url opts pid basePid hmem hloc hload,
      ih (basePid + 1)]
    simp [List.replicate_succ]

/-- Full characterization of a burst of `m + 1` concurrent `fetch` calls
on a state where both cache tiers and the in-flight map miss: the first
starts the request, all others join it. -/
theorem fetchCalls_spec (st : DSState) (now : Int) (url : String)
    (opts : FetchOptions) (basePid m : Nat)
    (hmem : mget st.cache url = none)
    (hloc : mget st.localStore (storageKey url) = none)
    (hload : mget st.loading url = none) :
    fetchCalls now url opts (m + 1) st basePid =
      (.startRequest basePid (addVersion st.cacheVersion url) ::
        List.replicate m (.joinInFlight basePid),
       { st with loading := mset st.loading url basePid }) := by
  have hload1 : mget (mset st.loading url basePid) url = some basePid :=
    mget_mset_self st.loading url basePid
  simp only [fetchCalls]
  rw [fetchStart_miss st now url opts basePid hmem hloc hload]
  rw [fetchCalls_join now url opts basePid
    { st with loading := mset st.loading url basePid } hmem hloc hload1
    m (basePid + 1)]

/-- C1: with both cache tiers and the in-flight map empty for a key, `n`
concurrent `fetch` calls for that key issued before the first settles
produce exactly one network request: the first call starts it, every
further call returns the same pending promise, and therefore every caller
observes the same eventual result. -/
theorem C1_single_flight (st : DSState) (now : Int) (url : String)
    (opts : FetchOptions) (basePid n : Nat) (hn : 1 ≤ n)
    (hmem : mget st.cache url = none)
    (hloc : mget st.localStore (storageKey url) = none)
    (hload : mget st.loading url = none) :
    (fetchCalls now url opts n st basePid).1 =
      .startRequest basePid (addVersion st.cacheVersion url) ::
        List.replicate (n - 1) (.joinInFlight basePid) ∧
    ((fetchCalls now url opts n st basePid).1.filter isNetworkCall).length = 1 ∧
    (∀ d ∈ (fetchCalls now url opts n st basePid).1,
      pendingPid d = some basePid) ∧
    (∀ (resolve : Nat → Except String JsonVal),
      ∀ d ∈ (fetchCalls now url opts n st basePid).1,
        observedResult resolve d = resolve basePid) := by
  obtain ⟨m, rfl⟩ : ∃ m, n = m + 1 :=
    ⟨n - 1, (Nat.succ_pred_eq_of_pos hn).symm⟩
  have hlist : (fetchCalls now url opts (m + 1) st basePid).1 =
      .startRequest basePid (addVersion st.cacheVersion url) ::
        List.replicate m (.joinInFlight basePid) := by
    rw [fetchCalls_spec st now url opts basePid m hmem hloc hload]
  have hrepl : ∀ k : Nat,
      (List.replicate k (FetchDecision.joinInFlight basePid)).filter
        isNetworkCall = [] := by
    intro k
    induction k with
    | zero => rfl
    | succ j ih => simp [List.replicate_succ, List.filter_cons, isNetworkCall, ih]
  refine ⟨by simpa using hlist, ?_, ?_, ?_⟩
  · rw [hlist]
    simp [List.filter_cons, isNetworkCall, hrepl m]
  · intro d hd
    rw [hlist] at hd
    rcases List.mem_cons.mp hd with h | h
    · rw [h]; rfl
    · rw [List.eq_of_mem_replicate h]; rfl
  · intro resolve d hd
    rw [hlist] at hd
    rcases List.mem_cons.mp hd with h | h
    · rw [h]; rfl
    · rw [List.eq_of_mem_replicate h]; rfl

/-- C1 witness: three concurrent calls for the stats document on a fresh
service perform exactly one network request. -/
theorem C1_single_flight_witness :
    (fetchCalls 0 "/data/stats.json" {} 3 ⟨[], [], [], "1.2"⟩ 7).1 =
      .startRequest 7 (addVersion "1.2" "/data/stats.json") ::
        List.replicate 2 (.joinInFlight 7) ∧
    ((fetchCalls 0 "/data/stats.json" {} 3 ⟨[], [], [], "1.2"⟩ 7).1.filter
      isNetworkCall).length = 1 :=
  ⟨(C1_single_flight ⟨[], [], [], "1.2"⟩ 0 "/data/stats.json" {} 7 3
      (by decide) rfl rfl rfl).1,
   (C1_single_flight ⟨[], [], [], "1.2"⟩ 0 "/data/stats.json" {} 7 3
      (by decide) rfl rfl rfl).2.1⟩

/-- When every attempt fails at transport level, the retry loop uses all
remaining attempts, sleeps the doubling backoff between them, and rethrows
the last attempt's error. -/
theorem retryLoop_allFail (sched : Nat → AttemptOutcome) (emsg : Nat → String) :
    ∀ (remaining i : Nat), 1 ≤ remaining →
    (∀ j, j < remaining → sched (i + j) = .transportErr (emsg (i + j))) →
    retryLoop sched remaining i =
      .rejected (emsg (i + remaining - 1)) (i + remaining)
        ((List.range (remaining - 1)).map (fun j => 2 ^ (i + j) * 1000)) := by
  intro remaining
  induction remaining with
  | zero => intro i h; omega
  | succ m ih =>
    intro i _ hs
    have h0 : sched i = .transportErr (emsg i) := by
      simpa using hs 0 (Nat.succ_pos m)
    rw [retryLoop, h0]
    dsimp only
    by_cases hm : m = 0
    · subst hm
      simp
    · rw [if_neg hm]
      obtain ⟨k, rfl⟩ : ∃ k, m = k + 1 := ⟨m - 1, by omega⟩
      have ihm := ih (i + 1) (by omega) (fun j hj => by
        have h := hs (j + 1) (by omega)
        rw [show i + (j + 1) = i + 1 + j from by omega] at h
        exact h)
      rw [ihm]
      have hmsg : i + 1 + (k + 1) - 1 = i + (k + 1 + 1) - 1 := by omega
      have hatt : i + 1 + (k + 1) = i + (k + 1 + 1) := by omega
      have hdelays : 2 ^ i * 1000 ::
          (List.range (k + 1 - 1)).map (fun j => 2 ^ (i + 1 + j) * 1000) =
          (List.range (k + 1 + 1 - 1)).map (fun j => 2 ^ (i + j) * 1000) := by
        rw [show k + 1 + 1 - 1 = k + 1 from rfl, show k + 1 - 1 = k from rfl]
        rw [List.range_succ_eq_map, List.map_cons, List.map_map]
        refine congrArg₂ _ (by simp) ?_
        refine List.map_congr_left (fun j _ => ?_)
        show 2 ^ (i + 1 + j) * 1000 = 2 ^ (i + (j + 1)) * 1000
        rw [show i + 1 + j = i + (j + 1) from by omega]
      rw [hmsg, hatt]
      dsimp only
      rw [hdelays]

/-- The transport schedule of the C2 scenario: the connection fails on the
first two attempts and the third resolves with a successful response. -/
def twoFailSched (e1 e2 : String) (payload : JsonVal) : Nat → AttemptOutcome :=
  fun i =>
    if i = 0 then .transportErr e1
    else if i = 1 then .transportErr e2
    else .response ⟨true, 200, "OK", payload⟩

/-- C2: for `retries = n ≥ 1`, an all-transport-failure run performs `n`
attempts with `n - 1` backoff delays `1000 · 2^i` ms (1 s base, doubling)
and rethrows the last transport error; a non-success HTTP response on the
first attempt is returned immediately — never retried — and the `.then`
chain raises an error naming the status; after exhausted retries every
coalesced caller observes that same failure; and a fetch whose transport
fails twice then succeeds on the third attempt with `retries = 3` yields
the successful payload to every coalesced caller. -/
theorem C2_retry_semantics :
    (∀ (sched : Nat → AttemptOutcome) (emsg : Nat → String) (r : Nat),
      1 ≤ r → (∀ i, i < r → sched i = .transportErr (emsg i)) →
      fetchWithRetry sched r =
        .rejected (emsg (r - 1)) r
          ((List.range (r - 1)).map (fun i => 2 ^ i * 1000))) ∧
    (∀ (url : String) (opts : FetchOptions) (sched : Nat → AttemptOutcome)
        (resp : HttpResponse),
      sched 0 = .response resp → 1 ≤ opts.retries → resp.ok = false →
      fetchWithRetry sched opts.retries = .resolved resp 1 [] ∧
      processResponse url opts resp =
        .error ("HTTP " ++ toString resp.status ++ ": " ++ resp.statusText)) ∧
    (∀ (st : DSState) (now : Int) (url : String) (opts : FetchOptions)
        (basePid n : Nat) (sched : Nat → AttemptOutcome) (emsg : Nat → String),
      mget st.cache url = none → mget st.localStore (storageKey url) = none →
      mget st.loading url = none → 1 ≤ opts.retries →
      (∀ i, i < opts.retries → sched i = .transportErr (emsg i)) →
      netOutcome url opts sched = .error (emsg (opts.retries - 1)) ∧
      ∀ d ∈ (fetchCalls now url opts n st basePid).1,
        observedResult (fun _ => netOutcome url opts sched) d =
          .error (emsg (opts.retries - 1))) ∧
    (∀ (e1 e2 : String) (payload : JsonVal) (st : DSState) (now : Int)
        (url : String) (basePid n : Nat) (c : Bool),
      mget st.cache url = none → mget st.localStore (storageKey url) = none →
      mget st.loading url = none →
      fetchWithRetry (twoFailSched e1 e2 payload) 3 =
        .resolved ⟨true, 200, "OK", payload⟩ 3 [1000, 2000] ∧
      netOutcome url { cache := c, retries := 3 } (twoFailSched e1 e2 payload) =
        .ok payload ∧
      ∀ d ∈ (fetchCalls now url { cache := c, retries := 3 } n st basePid).1,
        observedResult
          (fun _ => netOutcome url { cache := c, retries := 3 }
            (twoFailSched e1 e2 payload)) d = .ok payload) := by
  have hAll : ∀ (sched : Nat → AttemptOutcome) (emsg : Nat → String) (r : Nat),
      1 ≤ r → (∀ i, i < r → sched i = .transportErr (emsg i)) →
      fetchWithRetry sched r =
        .rejected (emsg (r - 1)) r
          ((List.range (r - 1)).map (fun i => 2 ^ i * 1000)) := by
    intro sched emsg r hr hs
    unfold fetchWithRetry
    rw [retryLoop_allFail sched emsg r 0 hr (fun j hj => by simpa using hs j hj)]
    simp
  have hPending : ∀ (st : DSState) (now : Int) (url : String)
      (opts : FetchOptions) (basePid n : Nat)
      (res : Except String JsonVal),
      mget st.cache url = none → mget st.localStore (storageKey url) = none →
      mget st.loading url = none →
      ∀ d ∈ (fetchCalls now url opts n st basePid).1,
        observedResult (fun _ => res) d = res := by
    intro st now url opts basePid n res hmem hloc hload d hd
    cases n with
    | zero => simp [fetchCalls] at hd
    | succ m =>
      rw [fetchCalls_spec st now url opts basePid m hmem hloc hload] at hd
      rcases List.mem_cons.mp hd with h | h
      · rw [h]; rfl
      · rw [List.eq_of_mem_replicate h]; rfl
  refine ⟨hAll, ?_, ?_, ?_⟩
  · intro url opts sched resp hs0 hr hok
    obtain ⟨m, hm⟩ : ∃ m, opts.retries = m + 1 := ⟨opts.retries - 1, by omega⟩
    constructor
    · unfold fetchWithRetry
      rw [hm, retryLoop, hs0]
    · simp [processResponse, hok, httpErrorMsg]
  · intro st now url opts basePid n sched emsg hmem hloc hload hr hs
    have hnet : netOutcome url opts sched = .error (emsg (opts.retries - 1)) := by
      unfold netOutcome
      rw [hAll sched emsg opts.retries hr hs]
    exact ⟨hnet, fun d hd => by
      rw [hPending st now url opts basePid n _ hmem hloc hload d hd, hnet]⟩
  · intro e1 e2 payload st now url basePid n c hmem hloc hload
    refine ⟨rfl, rfl, ?_⟩
    intro d hd
    rw [hPending st now url { cache := c, retries := 3 } basePid n _
      hmem hloc hload d hd]
    rfl

/-- C2 witness: a concrete all-failure run with `retries = 3` rejects
after 3 attempts with delays 1 s then 2 s; a concrete 404 response is
returned on the first attempt without retrying and raises `HTTP 404`; and
the two-failures-then-success schedule returns the payload. -/
theorem C2_retry_semantics_witness :
    fetchWithRetry (fun _ => .transportErr "ECONNREFUSED") 3 =
      .rejected "ECONNREFUSED" 3 [1000, 2000] ∧
    (fetchWithRetry (fun _ => .response ⟨false, 404, "Not Found", .null⟩) 3 =
      .resolved ⟨false, 404, "Not Found", .null⟩ 1 [] ∧
     processResponse "/data/stats.json" {} ⟨false, 404, "Not Found", .null⟩ =
      .error "HTTP 404: Not Found") ∧
    netOutcome "/data/stats.json" { cache := true, retries := 3 }
      (twoFailSched "e1" "e2" (.str "payload")) = .ok (.str "payload") :=
  ⟨C2_retry_semantics.1 (fun _ => .transportErr "ECONNREFUSED")
      (fun _ => "ECONNREFUSED") 3 (by decide) (fun i _ => rfl),
   C2_retry_semantics.2.1 "/data/stats.json" {}
      (fun _ => .response ⟨false, 404, "Not Found", .null⟩)
      ⟨false, 404, "Not Found", .null⟩ rfl (by decide) rfl,
   (C2_retry_semantics.2.2.2 "e1" "e2" (.str "payload")
      ⟨[], [], [], "1.2"⟩ 0 "/data/stats.json" 7 1 true rfl rfl rfl).2.1⟩

/-- A persisted entry whose stamp differs from the current schema version
is dropped and reported absent by `getFromLocalStorage`. -/
theorem getFromLocalStorage_mismatch (st : DSState) (k : String)
    (se : StoredEntry)
    (h : mget st.localStore (storageKey k) = some se)
    (hv : se.version ≠ st.cacheVersion) :
    getFromLocalStorage st k =
      (none, { st with localStore := mdel st.localStore (storageKey k) }) := by
  unfold getFromLocalStorage
  rw [h]
  simp [hv]

/-- With an empty memory tier, an empty in-flight map, and a persisted
entry carrying a stale schema version, `fetch` goes to the network. -/
theorem fetchStart_localMismatch (st : DSState) (now : Int) (url : String)
    (opts : FetchOptions) (pid : Nat) (se : StoredEntry)
    (hmem : mget st.cache url = none)
    (hloc : mget st.localStore (storageKey url) = some se)
    (hv : se.version ≠ st.cacheVersion)
    (hload : mget st.loading url = none) :
    (fetchStart st now url opts pid).1 =
      .startRequest pid (addVersion st.cacheVersion url) := by
  have hlocal := getFromLocalStorage_mismatch st url se hloc hv
  unfold fetchStart fetchJoinOrStart
  cases hc : opts.cache <;> simp [hc, hmem, hlocal, hload]

/-- C3: `saveToLocalStorage` stamps every persisted entry with the current
schema version; `getFromLocalStorage` never returns an entry whose stored
version differs from the current one, whatever its age, and removes it;
and after a version bump (a fresh service instance whose `cacheVersion`
differs from the one an entry was persisted under) a `fetch` goes to the
network — it does not return the pre-bump payload even though the entry's
TTL has not expired. -/
theorem C3_schema_version :
    (∀ (st : DSState) (k : String) (e : CacheEntry),
      mget (saveToLocalStorage st k e).localStore (storageKey k) =
        some ⟨st.cacheVersion, e.data, e.timestamp⟩) ∧
    (∀ (st : DSState) (k : String) (se : StoredEntry),
      mget st.localStore (storageKey k) = some se →
      se.version ≠ st.cacheVersion →
      (getFromLocalStorage st k).1 = none ∧
      mget (getFromLocalStorage st k).2.localStore (storageKey k) = none) ∧
    (∀ (ls : List (String × StoredEntry)) (k oldVer newVer : String)
        (e : CacheEntry) (now : Int) (opts : FetchOptions) (pid : Nat),
      oldVer ≠ newVer →
      now - e.timestamp < opts.cacheDuration →
      (fetchStart
        ⟨[], [], (saveToLocalStorage ⟨[], [], ls, oldVer⟩ k e).localStore,
          newVer⟩ now k opts pid).1 =
        .startRequest pid (addVersion newVer k)) := by
  refine ⟨?_, ?_, ?_⟩
  · intro st k e
    exact mget_mset_self st.localStore (storageKey k) _
  · intro st k se h hv
    rw [getFromLocalStorage_mismatch st k se h hv]
    exact ⟨rfl, by simp [mget_mdel]⟩
  · intro ls k oldVer newVer e now opts pid hver _
    refine fetchStart_localMismatch _ now k opts pid
      ⟨oldVer, e.data, e.timestamp⟩ rfl ?_ ?_ rfl
    · exact mget_mset_self ls (storageKey k) _
    · exact fun h => hver h

/-- C3 witness: a concrete entry persisted under version `1.1` is not
served once the version is `1.2`, within TTL; the stamped write and the
mismatch read are exercised at concrete values. -/
theorem C3_schema_version_witness :
    mget (saveToLocalStorage ⟨[], [], [], "1.2"⟩ "/data/stats.json"
      ⟨.str "x", 50⟩).localStore (storageKey "/data/stats.json") =
      some ⟨"1.2", .str "x", 50⟩ ∧
    (getFromLocalStorage
      ⟨[], [], [(storageKey "/data/stats.json", ⟨"1.1", .str "x", 50⟩)], "1.2"⟩
      "/data/stats.json").1 = none ∧
    (fetchStart
      ⟨[], [], (saveToLocalStorage ⟨[], [], [], "1.1"⟩ "/data/stats.json"
        ⟨.str "x", 50⟩).localStore, "1.2"⟩ 60 "/data/stats.json" {} 3).1 =
      .startRequest 3 (addVersion "1.2" "/data/stats.json") :=
  ⟨C3_schema_version.1 ⟨[], [], [], "1.2"⟩ "/data/stats.json" ⟨.str "x", 50⟩,
   (C3_schema_version.2.1
      ⟨[], [], [(storageKey "/data/stats.json", ⟨"1.1", .str "x", 50⟩)], "1.2"⟩
      "/data/stats.json" ⟨"1.1", .str "x", 50⟩ rfl (by decide)).1,
   C3_schema_version.2.2 [] "/data/stats.json" "1.1" "1.2" ⟨.str "x", 50⟩
      60 {} 3 (by decide) (by decide)⟩

theorem stringAppendCancelLeft (a b c : String) (h : a ++ b = a ++ c) :
    b = c := by
  have hd : a.data ++ b.data = a.data ++ c.data := by
    have h2 := congrArg String.data h
    simpa [String.data_append] using h2
  exact String.ext (List.append_cancel_left hd)

/-- C8: once the gate has been unlocked for expected hash `H`, the unlock
is recorded in the session store under the key derived from `H`, so a
later gate check for the same configured hash (e.g. after a page reload in
the same session) does not block; if the configured expected hash changes
to `H2 ≠ H`, the prior unlock no longer satisfies the gate and it blocks
again. -/
theorem C8_gate_session (sess : SessionStore) (cfg cfg2 : GateConfig)
    (H H2 : String)
    (hoff : mget sess forceOffKey ≠ some "1")
    (hen : gateEnabled cfg.enabled = true)
    (hH : expectedHashOf cfg = H) (hne : H ≠ "")
    (hen2 : gateEnabled cfg2.enabled = true)
    (hH2 : expectedHashOf cfg2 = H2) (hne2 : H2 ≠ "") (hdiff : H2 ≠ H)
    (hfresh : mget sess (gateSessionKey H2) = none) :
    mget (gateUnlock sess H) (gateSessionKey H) = some H ∧
    (enforceMaintenanceGate false (gateUnlock sess H) (some cfg)).blocks =
      false ∧
    (enforceMaintenanceGate false (gateUnlock sess H) (some cfg2)).blocks =
      true := by
  have htok : sessionToken H = H := by simp [sessionToken, hne]
  have hg1 : mget (gateUnlock sess H) (gateSessionKey H) = some H := by
    unfold gateUnlock
    rw [htok]
    exact mget_mset_self sess (gateSessionKey H) H
  have hoffU : ¬ mget (gateUnlock sess H) forceOffKey = some "1" := by
    unfold gateUnlock
    rw [htok, mget_mset]
    by_cases hk : forceOffKey = gateSessionKey H
    · rw [if_pos hk]
      have hpre : maintPrefix ++ "force_off" = maintPrefix ++ H := by
        have : forceOffKey = maintPrefix ++ H := by
          rw [hk]; simp [gateSessionKey, hne]
        simpa [forceOffKey, maintPrefix] using this
      have hHfo : H = "force_off" := (stringAppendCancelLeft _ _ _ hpre).symm
      subst hHfo
      decide
    · rw [if_neg hk]
      exact hoff
  have hkdiff : gateSessionKey H2 ≠ gateSessionKey H := by
    intro hk
    have hk2 : maintPrefix ++ H2 = maintPrefix ++ H := by
      simpa [gateSessionKey, hne, hne2] using hk
    exact hdiff (stringAppendCancelLeft _ _ _ hk2)
  have hg2 : mget (gateUnlock sess H) (gateSessionKey H2) = none := by
    unfold gateUnlock
    rw [htok, mget_mset, if_neg hkdiff]
    exact hfresh
  refine ⟨hg1, ?_, ?_⟩
  · simp [enforceMaintenanceGate, hoffU, hen, hH, hg1, htok]
  · simp [enforceMaintenanceGate, hoffU, hen2, hH2, hg2]

/-- C8 witness: unlocking for hash `abc` persists for that hash, and a
configuration switched to hash `beef` blocks again. -/
theorem C8_gate_session_witness :
    mget (gateUnlock [] "abc") (gateSessionKey "abc") = some "abc" ∧
    (enforceMaintenanceGate false (gateUnlock [] "abc")
      (some ⟨some (.bool true), some "abc"⟩)).blocks = false ∧
    (enforceMaintenanceGate false (gateUnlock [] "abc")
      (some ⟨some (.bool true), some "beef"⟩)).blocks = true :=
  C8_gate_session [] ⟨some (.bool true), some "abc"⟩
    ⟨some (.bool true), some "beef"⟩ "abc" "beef"
    (by decide) rfl rfl (by decide) rfl rfl (by decide) (by decide) rfl

/-- A `||`-defaulted field is either the default or a truthy
source-supplied value. -/
theorem jsOr_default_or_truthy (o : Option JsonVal) (d : JsonVal) :
    jsOr o d = d ∨ truthy (jsOr o d) = true := by
  unfold jsOr
  cases o with
  | none => exact Or.inl rfl
  | some v =>
    dsimp only
    by_cases h : truthy v = true
    · rw [if_pos h]; exact Or.inr h
    · rw [if_neg h]; exact Or.inl rfl

theorem jsOr2_default_or_truthy (o1 o2 : Option JsonVal) (d : JsonVal) :
    jsOr2 o1 o2 d = d ∨ truthy (jsOr2 o1 o2 d) = true := by
  unfold jsOr2
  rcases jsOr_default_or_truthy o2 d with h2 | h2
  · rw [h2] at *
    exact jsOr_default_or_truthy o1 d
  · rcases jsOr_default_or_truthy o1 (jsOr o2 d) with h1 | h1
    · rw [h1]; exact Or.inr h2
    · exact Or.inr h1

/-- Structure of a successful normalization run: one record per truthy
item, in order, each record built by `mkNormEpisode`. -/
theorem normEpisodesList_ok (nowMs : Int) :
    ∀ (xs : List JsonVal) (i : Nat) (out : List NormEpisode),
      normEpisodesList nowMs xs i = .ok out →
      out.length = (xs.filter truthy).length ∧
      ∀ r ∈ out, ∃ (ep : JsonVal) (j : Nat) (nm : List NormMessage),
        r = mkNormEpisode ep j nm := by
  intro xs
  induction xs with
  | nil =>
    intro i out h
    simp only [normEpisodesList] at h
    injection h with h2
    subst h2
    exact ⟨rfl, by simp⟩
  | cons e rest ih =>
    intro i out h
    simp only [normEpisodesList] at h
    by_cases ht : truthy e = true
    · rw [normalizeEpisode, if_pos ht] at h
      cases hm : normMessages nowMs (dateOf e) (rawMessages e) 0 with
      | error err =>
        rw [hm] at h
        cases h
      | ok nmsgs =>
        rw [hm] at h
        cases hrest : normEpisodesList nowMs rest (i + 1) with
        | error err =>
          rw [hrest] at h
          cases h
        | ok outRest =>
          rw [hrest] at h
          injection h with h2
          subst h2
          obtain ⟨hlen, hmem⟩ := ih (i + 1) outRest hrest
          refine ⟨?_, ?_⟩
          · simp [List.filter_cons, ht, hlen]
          · intro r hr
            rcases List.mem_cons.mp hr with hr | hr
            · exact ⟨e, i, nmsgs, hr⟩
            · exact hmem r hr
    · rw [normalizeEpisode, if_neg ht] at h
      cases hrest : normEpisodesList nowMs rest (i + 1) with
      | error err =>
        rw [hrest] at h
        cases h
      | ok outRest =>
        rw [hrest] at h
        injection h with h2
        subst h2
        obtain ⟨hlen, hmem⟩ := ih (i + 1) outRest hrest
        refine ⟨?_, hmem⟩
        simp [List.filter_cons, ht, hlen]

/-- C4 counterexample: the item `5` is not an object, yet it is **not**
dropped — the source only drops falsy items (`if (!episode) return null`),
so `5` yields a fully defaulted record; and a source-supplied truthy
non-container `terminal_blocks` passes through, so that output field is
present but not a container. -/
theorem C4_counterexample :
    normalizeEpisodes 0 (.arr [.num 5, .obj [("terminal_blocks", .num 7)]]) =
      .ok [⟨.num 5, .null, .num 1, [], .arr [], .obj [], .obj [], .null⟩,
           ⟨.obj [("terminal_blocks", .num 7)], .null, .num 2, [], .num 7,
            .obj [], .obj [], .null⟩] ∧
    isObjectVal (.num 5) = false ∧
    isContainerVal (.num 7) = false :=
  ⟨rfl, rfl, rfl⟩

/-- C4 (amended): for every raw episode array, a successful normalization
yields at most one record per input item (length never grows), dropping
exactly the falsy items (`null`, `false`, `0`, `""`) and keeping every
truthy item — object or not; and every output record carries its
`terminal_blocks`, `score_delta` and `metrics_update` fields (and
`messages`, a list by construction): each is the empty container default
unless the source supplied a truthy value, which passes through
unchanged. -/
theorem C4_normalizer_shape (nowMs : Int) (xs : List JsonVal)
    (out : List NormEpisode)
    (h : normalizeEpisodes nowMs (.arr xs) = .ok out) :
    out.length ≤ xs.length ∧
    out.length = (xs.filter truthy).length ∧
    ∀ r ∈ out,
      (r.terminal_blocks = .arr [] ∨ truthy r.terminal_blocks = true) ∧
      (r.score_delta = .obj [] ∨ truthy r.score_delta = true) ∧
      (r.metrics_update = .obj [] ∨ truthy r.metrics_update = true) := by
  obtain ⟨hlen, hmem⟩ := normEpisodesList_ok nowMs xs 0 out h
  refine ⟨?_, hlen, ?_⟩
  · rw [hlen]
    exact List.length_filter_le _ _
  · intro r hr
    obtain ⟨ep, j, nm, rfl⟩ := hmem r hr
    exact ⟨jsOr_default_or_truthy _ _, jsOr2_default_or_truthy _ _ _,
      jsOr2_default_or_truthy _ _ _⟩

/-- C4 witness: a batch holding a falsy item, a truthy non-object and a
plain object normalizes to two records with the field guarantees. -/
theorem C4_normalizer_shape_witness :
    ([(⟨.num 5, .null, .num 2, [], .arr [], .obj [], .obj [], .null⟩ :
        NormEpisode)].length ≤ [JsonVal.null, .num 5].length) ∧
    ([(⟨.num 5, .null, .num 2, [], .arr [], .obj [], .obj [], .null⟩ :
        NormEpisode)].length =
      ([JsonVal.null, .num 5].filter truthy).length) :=
  ⟨(C4_normalizer_shape 0 [.null, .num 5] _ rfl).1,
   (C4_normalizer_shape 0 [.null, .num 5] _ rfl).2.1⟩

/-- C5: a message lacking a source timestamp receives a synthetic one —
when the episode carries a (truthy) date the result is independent of the
wall clock (reproducible across reloads); for a parseable `YYYY-MM-DD`
date it is the date's instant at 03:14:00 UTC plus 3 minutes per message
index, so synthetic instants are strictly increasing within one episode;
and the scenario episode `{date: "2026-03-01", two timestamp-less
messages}` normalizes to the message timestamps for 2026-03-01 03:14:00
UTC and 2026-03-01 03:17:00 UTC (`toISOString` renders them with explicit
milliseconds). -/
theorem C5_synthetic_timestamps :
    (∀ (now1 now2 : Int) (d : JsonVal) (i : Nat), truthy d = true →
      syntheticTimestamp now1 d i = syntheticTimestamp now2 d i) ∧
    (∀ (now : Int) (s : String) (ms : Int) (i : Nat),
      parseDateString s = some ms →
      syntheticTimestamp now (.str s) i =
        some (toISOString (synthInstant (ms + BASE_OFFSET_MS) i))) ∧
    (∀ (base : Int) (i j : Nat), i < j →
      synthInstant base i < synthInstant base j) ∧
    (∀ (now : Int) (d : JsonVal) (i : Nat) (msg : JsonVal) (ts : String),
      msg ≠ .null → getF msg "timestamp" = none →
      syntheticTimestamp now d i = some ts →
      normalizeMessage now d i msg = .ok ⟨msg, .str ts⟩) ∧
    (∀ now : Int,
      normalizeEpisodes now (.arr [.obj [("date", .str "2026-03-01"),
        ("title", .str "Contact"),
        ("messages", .arr [.obj [("author", .str "NEXUS"), ("text", .str "hi")],
          .obj [("author", .str "CIPHER"), ("text", .str "yo")]])]]) =
      .ok [⟨.obj [("date", .str "2026-03-01"), ("title", .str "Contact"),
        ("messages", .arr [.obj [("author", .str "NEXUS"), ("text", .str "hi")],
          .obj [("author", .str "CIPHER"), ("text", .str "yo")]])],
        .str "2026-03-01", .num 1,
        [⟨.obj [("author", .str "NEXUS"), ("text", .str "hi")],
          .str "2026-03-01T03:14:00.000Z"⟩,
         ⟨.obj [("author", .str "CIPHER"), ("text", .str "yo")],
          .str "2026-03-01T03:17:00.000Z"⟩],
        .arr [], .obj [], .obj [], .null⟩]) ∧
    parseDateString "2026-03-01" = some 1772323200000 ∧
    toISOString (synthInstant (1772323200000 + BASE_OFFSET_MS) 0) =
      "2026-03-01T03:14:00.000Z" ∧
    toISOString (synthInstant (1772323200000 + BASE_OFFSET_MS) 1) =
      "2026-03-01T03:17:00.000Z" := by
  refine ⟨?_, ?_, ?_, ?_, fun _ => rfl, rfl, rfl, rfl⟩
  · intro now1 now2 d i hd
    simp [syntheticTimestamp, hd]
  · intro now s ms i hp
    have hs : ¬ s = "" := by
      intro he
      subst he
      exact Option.noConfusion hp
    have htr : truthy (.str s) = true := by
      simp [truthy, bne_iff_ne, hs]
    unfold syntheticTimestamp
    rw [if_pos htr]
    have hjs : jsToString (.str s) = s := rfl
    rw [hjs, hp]
  · intro base i j hij
    unfold synthInstant
    simp only [Int.ofNat_eq_natCast]
    omega
  · intro now d i msg ts hmsg hg hts
    cases msg with
    | null => exact absurd rfl hmsg
    | bool b => simp [normalizeMessage, messageTimestamp, hg, jsOr, hts]
    | num n => simp [normalizeMessage, messageTimestamp, hg, jsOr, hts]
    | str s => simp [normalizeMessage, messageTimestamp, hg, jsOr, hts]
    | arr elems => simp [normalizeMessage, messageTimestamp, hg, jsOr, hts]
    | obj fields => simp [normalizeMessage, messageTimestamp, hg, jsOr, hts]

/-- C5 witness: the clock-independence, the date formula, the strict
monotonicity and the per-message rule at concrete inputs. -/
theorem C5_synthetic_timestamps_witness :
    syntheticTimestamp 5 (.str "2026-03-01") 0 =
      syntheticTimestamp 999 (.str "2026-03-01") 0 ∧
    syntheticTimestamp 0 (.str "2026-03-01") 1 =
      some (toISOString (synthInstant (1772323200000 + BASE_OFFSET_MS) 1)) ∧
    synthInstant 1772323200000 0 < synthInstant 1772323200000 1 ∧
    normalizeMessage 0 (.str "2026-03-01") 0
      (.obj [("author", .str "NEXUS"), ("text", .str "hi")]) =
      .ok ⟨.obj [("author", .str "NEXUS"), ("text", .str "hi")],
        .str "2026-03-01T03:14:00.000Z"⟩ :=
  ⟨C5_synthetic_timestamps.1 5 999 (.str "2026-03-01") 0 (by decide),
   C5_synthetic_timestamps.2.1 0 "2026-03-01" 1772323200000 1 (by decide),
   C5_synthetic_timestamps.2.2.1 1772323200000 0 1 (by decide),
   C5_synthetic_timestamps.2.2.2.1 0 (.str "2026-03-01") 0
     (.obj [("author", .str "NEXUS"), ("text", .str "hi")])
     "2026-03-01T03:14:00.000Z" (by simp) rfl (by decide)⟩

end Uplink
